import Mathlib

/-!
# Verification of the blog API route handlers

Shallow embedding of the JSON API route handlers of `src/main.py` together
with the request schemas of `src/schemas.py`.  The database session is
modelled as an explicit state (`DB`): a list of stored users, a list of
stored posts, and the autoincrement counters for the two primary keys.
`select(...).where(col == v).scalars().first()` becomes `List.find?`,
`.scalars().all()` with a `where` filter becomes `List.filter`, a committed
row mutation becomes `List.map` replacing the matched row, and
`db.delete(row)` becomes removal of the row with that primary key (primary
keys are unique, so filtering by id removes exactly the one row).
Raising `HTTPException(status_code=c)` becomes returning the numeric status
`c` together with the unchanged state.
-/

/-- A stored `models.User` row, with the attributes the handlers use:
`id` (server-generated primary key), `username`, `email`, and the optional
`image_file` (nullable column, written by `update_user`). -/
structure User where
  id : Nat
  username : String
  email : String
  image_file : Option String
deriving Repr, DecidableEq

/-- A stored `models.Post` row: `id` (server-generated primary key),
`title`, `content`, and `user_id` (foreign key to the owning user). -/
structure Post where
  id : Nat
  title : String
  content : String
  user_id : Nat
deriving Repr, DecidableEq

/-- The database state seen by one request: the two tables plus the
autoincrement counters that generate the next primary keys. -/
structure DB where
  users : List User
  posts : List Post
  nextUserId : Nat
  nextPostId : Nat
deriving Repr, DecidableEq

/-- Schema `UserCreate` (`src/schemas.py`): `username`, `email` and a
`password` of minimum length 8.  Format/length constraints are enforced by
the validation layer before the handler runs; `isValid` records the
password constraint relevant to the claims. -/
structure UserCreate where
  username : String
  email : String
  password : String
deriving Repr, DecidableEq

/-- The `min_length=8` constraint on `UserCreate.password`. -/
def UserCreate.isValid (u : UserCreate) : Prop :=
  u.password.length ≥ 8

instance (u : UserCreate) : Decidable u.isValid := by
  unfold UserCreate.isValid; infer_instance

/-- Schema `UserUpdate` (`src/schemas.py`): every field optional;
`none` models an absent field. -/
structure UserUpdate where
  username : Option String
  email : Option String
  image_file : Option String
deriving Repr, DecidableEq

/-- Schema `PostCreate` (`src/schemas.py`): `title`, `content`, `user_id`.
Used both by `create_post` and as the full-update (PUT) body. -/
structure PostCreate where
  title : String
  content : String
  user_id : Nat
deriving Repr, DecidableEq

/-- Schema `PostUpdate` (`src/schemas.py`): optional `title` and `content`
only — there is no owner field in the partial-update schema. -/
structure PostUpdate where
  title : Option String
  content : Option String
deriving Repr, DecidableEq

/-- `select(models.User).where(models.User.id == user_id)...first()`. -/
def DB.findUser (db : DB) (user_id : Nat) : Option User :=
  db.users.find? (fun u => u.id == user_id)

/-- `select(models.Post).where(models.Post.id == post_id)...first()`. -/
def DB.findPost (db : DB) (post_id : Nat) : Option Post :=
  db.posts.find? (fun p => p.id == post_id)

/-- `create_user` (`src/main.py` 95-123): reject with 409 if an existing
user already has the requested username; otherwise reject with 409 if one
already has the requested email; otherwise insert a new row built from
`username` and `email` only (the password is never read) and return 201
with the new row. -/
def create_user (db : DB) (body : UserCreate) : Nat × DB × Option User :=
  match db.users.find? (fun u => u.username == body.username) with
  | some _ => (409, db, none)
  | none =>
    match db.users.find? (fun u => u.email == body.email) with
    | some _ => (409, db, none)
    | none =>
      let new_user : User :=
        { id := db.nextUserId
          username := body.username
          email := body.email
          image_file := none }
      (201,
       { db with
          users := db.users ++ [new_user]
          nextUserId := db.nextUserId + 1 },
       some new_user)

/-- The first guard of `update_user` (lines 141-150): the body supplies a
username, it differs from the stored one, and some stored user already has
it. -/
def usernameConflict (db : DB) (user : User) (upd : UserUpdate) : Bool :=
  match upd.username with
  | some un =>
      un != user.username &&
      (db.users.find? (fun u => u.username == un)).isSome
  | none => false

/-- The second guard of `update_user` (lines 152-161): the body supplies an
email, it differs from the stored one, and some stored user already has
it. -/
def emailConflict (db : DB) (user : User) (upd : UserUpdate) : Bool :=
  match upd.email with
  | some em =>
      em != user.email &&
      (db.users.find? (fun u => u.email == em)).isSome
  | none => false

/-- The field application of `update_user` (lines 163-168): each of the
three optional body fields overwrites the stored column only when
supplied. -/
def applyUserUpdate (user : User) (upd : UserUpdate) : User :=
  { user with
      username := upd.username.getD user.username
      email := upd.email.getD user.email
      image_file :=
        match upd.image_file with
        | some f => some f
        | none => user.image_file }

/-- `update_user` (PATCH, `src/main.py` 128-172): 404 if the user id is
absent; 400 on a username collision, then 400 on an email collision;
otherwise apply exactly the supplied fields to the stored row and return
200. -/
def update_user (db : DB) (user_id : Nat) (upd : UserUpdate) : Nat × DB :=
  match db.findUser user_id with
  | none => (404, db)
  | some user =>
    if usernameConflict db user upd then (400, db)
    else if emailConflict db user upd then (400, db)
    else
      (200,
       { db with
          users := db.users.map
            (fun u => if u.id == user_id then applyUserUpdate user upd else u) })

/-- `delete_user` (`src/main.py` 177-187): 404 if absent, otherwise remove
the row with that primary key and return 204 (no content). -/
def delete_user (db : DB) (user_id : Nat) : Nat × DB :=
  match db.findUser user_id with
  | none => (404, db)
  | some _ =>
      (204, { db with users := db.users.filter (fun u => u.id != user_id) })

/-- `get_user` (`src/main.py` 195-205): 404 if absent, otherwise 200 with
the stored row. -/
def get_user (db : DB) (user_id : Nat) : Nat × Option User :=
  match db.findUser user_id with
  | none => (404, none)
  | some user => (200, some user)

/-- `get_user_posts` (`src/main.py` 210-223): 404 if the user is absent,
otherwise 200 with all stored posts whose `user_id` column equals the path
id, in storage order. -/
def get_user_posts (db : DB) (user_id : Nat) : Nat × Option (List Post) :=
  match db.findUser user_id with
  | none => (404, none)
  | some _ => (200, some (db.posts.filter (fun p => p.user_id == user_id)))

/-- `create_post` (`src/main.py` 249-271): 404 if the referenced owning
user does not exist; otherwise insert a new post row and return 201 with
it. -/
def create_post (db : DB) (body : PostCreate) : Nat × DB × Option Post :=
  match db.findUser body.user_id with
  | none => (404, db, none)
  | some _ =>
    let new_post : Post :=
      { id := db.nextPostId
        title := body.title
        content := body.content
        user_id := body.user_id }
    (201,
     { db with
        posts := db.posts ++ [new_post]
        nextPostId := db.nextPostId + 1 },
     some new_post)

/-- `update_post_full` (PUT, `src/main.py` 276-318): 404 if the post is
absent; 404 if the supplied owner id references no user; 203 ("Your Not
Author of Post") if the supplied owner id differs from the stored one;
otherwise overwrite title, content and owner and return 200. -/
def update_post_full (db : DB) (post_id : Nat) (body : PostCreate) : Nat × DB :=
  match db.findPost post_id with
  | none => (404, db)
  | some post =>
    match db.findUser body.user_id with
    | none => (404, db)
    | some _ =>
      if body.user_id != post.user_id then (203, db)
      else
        let post' : Post :=
          { post with
              title := body.title
              content := body.content
              user_id := body.user_id }
        (200,
         { db with
            posts := db.posts.map (fun p => if p.id == post_id then post' else p) })

/-- `update_post_partal` (PATCH, `src/main.py` 323-344): 404 if the post is
absent; otherwise apply exactly the supplied fields (`exclude_unset`) and
return 200. -/
def update_post_partal (db : DB) (post_id : Nat) (body : PostUpdate) : Nat × DB :=
  match db.findPost post_id with
  | none => (404, db)
  | some post =>
    let post' : Post :=
      { post with
          title := body.title.getD post.title
          content := body.content.getD post.content }
    (200,
     { db with
        posts := db.posts.map (fun p => if p.id == post_id then post' else p) })

/-- `delete_post` (`src/main.py` 349-357): 404 if absent, otherwise remove
the row with that primary key and return 204. -/
def delete_post (db : DB) (post_id : Nat) : Nat × DB :=
  match db.findPost post_id with
  | none => (404, db)
  | some _ =>
      (204, { db with posts := db.posts.filter (fun p => p.id != post_id) })

/-- `get_post` (`src/main.py` 235-240): 200 with the stored row if present,
404 otherwise. -/
def get_post (db : DB) (post_id : Nat) : Nat × Option Post :=
  match db.findPost post_id with
  | none => (404, none)
  | some post => (200, some post)

/-- One mutating API request, for stating state invariants over arbitrary
operation sequences.  Read-only endpoints are omitted: they return the
state unchanged. -/
inductive Op where
  | createUser (body : UserCreate)
  | updateUser (user_id : Nat) (upd : UserUpdate)
  | deleteUser (user_id : Nat)
  | createPost (body : PostCreate)
  | updatePostFull (post_id : Nat) (body : PostCreate)
  | updatePostPartal (post_id : Nat) (body : PostUpdate)
  | deletePost (post_id : Nat)
deriving Repr, DecidableEq

/-- The state left behind by one API request. -/
def step (db : DB) : Op → DB
  | .createUser body => (create_user db body).2.1
  | .updateUser user_id upd => (update_user db user_id upd).2
  | .deleteUser user_id => (delete_user db user_id).2
  | .createPost body => (create_post db body).2.1
  | .updatePostFull post_id body => (update_post_full db post_id body).2
  | .updatePostPartal post_id body => (update_post_partal db post_id body).2
  | .deletePost post_id => (delete_post db post_id).2

/-- The state after a sequence of API requests. -/
def run (db : DB) (ops : List Op) : DB :=
  ops.foldl step db

/-- Well-formedness of the users table maintained by the autoincrement
primary key: every stored id is below the next generated one. -/
def DB.wfUsers (db : DB) : Prop :=
  ∀ u ∈ db.users, u.id < db.nextUserId

/-- Well-formedness of the posts table maintained by the autoincrement
primary key: every stored id is below the next generated one. -/
def DB.wfPosts (db : DB) : Prop :=
  ∀ p ∈ db.posts, p.id < db.nextPostId

instance (db : DB) : Decidable db.wfUsers := by
  unfold DB.wfUsers; infer_instance

instance (db : DB) : Decidable db.wfPosts := by
  unfold DB.wfPosts; infer_instance

/-! ## Sample data, used to instantiate theorems with hypotheses -/

/-- Sample stored user. -/
def aliceU : User := { id := 1, username := "alice", email := "alice@ex.org", image_file := none }

/-- Second sample stored user. -/
def bobU : User := { id := 2, username := "bob", email := "bob@ex.org", image_file := some "bob.png" }

/-- Sample stored post, owned by `aliceU`. -/
def post1 : Post := { id := 1, title := "hello", content := "first", user_id := 1 }

/-- Second sample stored post, owned by `bobU`. -/
def post2 : Post := { id := 2, title := "hi", content := "second", user_id := 2 }

/-- Sample database holding the two users and the two posts. -/
def sampleDB : DB :=
  { users := [aliceU, bobU], posts := [post1, post2], nextUserId := 3, nextPostId := 3 }

/-! ## Helper lemmas -/

/-- `find?` commutes with a map that keeps the matching status of every
row. -/
theorem find?_map_update {α : Type} (l : List α) (p : α → Bool) (f : α → α)
    (hf : ∀ x, p x = true → p (f x) = true)
    (hn : ∀ x, p x = false → p (f x) = false) :
    (l.map f).find? p = (l.find? p).map f := by
  induction l with
  | nil => rfl
  | cons a l ih =>
    cases ha : p a with
    | true => simp [List.find?_cons, ha, hf a ha]
    | false => simp [List.find?_cons, ha, hn a ha, ih]

/-- Deleting rows with a different key leaves a `find?` by key unchanged. -/
theorem find?_filter_other {α : Type} (l : List α) (key : α → Nat) (i j : Nat)
    (hij : i ≠ j) :
    (l.filter (fun x => key x != j)).find? (fun x => key x == i) =
      l.find? (fun x => key x == i) := by
  induction l with
  | nil => rfl
  | cons a l ih =>
    by_cases ha : key a = i
    · have h1 : (key a != j) = true := by simp [ha, hij]
      have h2 : (key a == i) = true := by simp [ha]
      simp only [List.filter_cons, h1, if_true, List.find?_cons, h2]
    · have h2 : (key a == i) = false := by simp [ha]
      by_cases hb : (key a != j) = true
      · simp only [List.filter_cons, hb, if_true, List.find?_cons, h2, ih]
      · simp only [Bool.not_eq_true] at hb
        simp only [List.filter_cons, hb, Bool.false_eq_true, if_false,
          List.find?_cons, h2, ih]

/-- Rows surviving a deletion by primary key never match a lookup for that
key. -/
theorem find?_filter_ne {α : Type} (l : List α) (key : α → Nat) (i : Nat) :
    (l.filter (fun x => key x != i)).find? (fun x => key x == i) = none := by
  rw [List.find?_eq_none]
  intro x hx
  have hmem := (List.mem_filter.mp hx).2
  simp only [bne_iff_ne, ne_eq] at hmem
  simp [hmem]

/-! ## Claims -/

/-- C1: for every existing post and every PUT body whose owner id references
an existing user but differs from the post's stored owner id, the request is
answered with status 203 ("author mismatch") and the database — in
particular the stored post's title, content and owner id — is unchanged. -/
theorem update_post_full_author_mismatch (db : DB) (post_id : Nat)
    (body : PostCreate) (post : Post)
    (hpost : db.findPost post_id = some post)
    (huser : (db.findUser body.user_id).isSome)
    (hne : body.user_id ≠ post.user_id) :
    update_post_full db post_id body = (203, db) := by
  unfold update_post_full
  rw [hpost]
  cases hu : db.findUser body.user_id with
  | none => rw [hu] at huser; simp at huser
  | some u => simp [bne_iff_ne, hne]

/-- Witness for C1 on the sample database. -/
theorem update_post_full_author_mismatch_w :
    update_post_full sampleDB 1 ⟨"x", "y", 2⟩ = (203, sampleDB) :=
  update_post_full_author_mismatch sampleDB 1 ⟨"x", "y", 2⟩ post1
    (by decide) (by decide) (by decide)

/-- C3: a post-creation request whose `user_id` matches no stored user is
answered with 404, the database (in particular its posts table) is
unchanged, and no post is returned. -/
theorem create_post_unknown_user (db : DB) (body : PostCreate)
    (h : db.findUser body.user_id = none) :
    create_post db body = (404, db, none) := by
  unfold create_post
  rw [h]

/-- Witness for C3 on the sample database. -/
theorem create_post_unknown_user_w :
    create_post sampleDB ⟨"t", "c", 99⟩ = (404, sampleDB, none) :=
  create_post_unknown_user sampleDB ⟨"t", "c", 99⟩ (by decide)

/-- C5: for a user id matching no stored user, read-by-id, partial update,
delete and list-posts all answer 404 and leave the state unchanged. -/
theorem unknown_user_operations_404 (db : DB) (user_id : Nat)
    (upd : UserUpdate) (h : db.findUser user_id = none) :
    get_user db user_id = (404, none) ∧
    update_user db user_id upd = (404, db) ∧
    delete_user db user_id = (404, db) ∧
    get_user_posts db user_id = (404, none) := by
  unfold get_user update_user delete_user get_user_posts
  rw [h]
  exact ⟨rfl, rfl, rfl, rfl⟩

/-- Witness for C5 on the sample database at the absent id 99. -/
theorem unknown_user_operations_404_w :
    get_user sampleDB 99 = (404, none) ∧
    update_user sampleDB 99 ⟨some "z", none, none⟩ = (404, sampleDB) ∧
    delete_user sampleDB 99 = (404, sampleDB) ∧
    get_user_posts sampleDB 99 = (404, none) :=
  unknown_user_operations_404 sampleDB 99 ⟨some "z", none, none⟩ (by decide)

/-- C9: `create_user` never reads the password: two creation requests equal
up to the password (both satisfying the schema's minimum length 8) produce
the same status, the same stored state and the same response, so no
password-derived data is stored. -/
theorem create_user_password_ignored (db : DB) (un em pw1 pw2 : String)
    (h1 : UserCreate.isValid ⟨un, em, pw1⟩)
    (h2 : UserCreate.isValid ⟨un, em, pw2⟩) :
    create_user db ⟨un, em, pw1⟩ = create_user db ⟨un, em, pw2⟩ := rfl

/-- Witness for C9: two concrete valid passwords, same result. -/
theorem create_user_password_ignored_w :
    create_user sampleDB ⟨"carol", "carol@ex.org", "password1"⟩ =
      create_user sampleDB ⟨"carol", "carol@ex.org", "hunter2hunter2"⟩ :=
  create_user_password_ignored sampleDB "carol" "carol@ex.org"
    "password1" "hunter2hunter2" (by decide) (by decide)

/-- C2: user creation is rejected with 409 whenever the username is taken;
otherwise rejected with 409 whenever the email is taken (the two checks run
sequentially, username first); and with both novel it answers 201 and
persists a record carrying the requested username and email that is then
retrievable by its id. -/
theorem create_user_spec (db : DB) (body : UserCreate) (hwf : db.wfUsers) :
    ((db.users.find? (fun u => u.username == body.username)).isSome →
        create_user db body = (409, db, none)) ∧
    (db.users.find? (fun u => u.username == body.username) = none →
     (db.users.find? (fun u => u.email == body.email)).isSome →
        create_user db body = (409, db, none)) ∧
    (db.users.find? (fun u => u.username == body.username) = none →
     db.users.find? (fun u => u.email == body.email) = none →
     ∃ nu : User,
       (create_user db body).1 = 201 ∧
       (create_user db body).2.2 = some nu ∧
       nu.username = body.username ∧ nu.email = body.email ∧
       get_user (create_user db body).2.1 nu.id = (200, some nu)) := by
  refine ⟨?_, ?_, ?_⟩
  · intro h
    unfold create_user
    cases hu : db.users.find? (fun u => u.username == body.username) with
    | none => rw [hu] at h; simp at h
    | some u => rfl
  · intro h1 h2
    unfold create_user
    rw [h1]
    cases he : db.users.find? (fun u => u.email == body.email) with
    | none => rw [he] at h2; simp at h2
    | some u => rfl
  · intro h1 h2
    refine ⟨⟨db.nextUserId, body.username, body.email, none⟩, ?_, ?_, rfl, rfl, ?_⟩
    · unfold create_user; rw [h1, h2]
    · unfold create_user; rw [h1, h2]
    · unfold create_user
      rw [h1, h2]
      simp only [get_user, DB.findUser]
      rw [List.find?_append]
      have hnone : db.users.find? (fun u => u.id == db.nextUserId) = none := by
        rw [List.find?_eq_none]
        intro x hx
        have := hwf x hx
        simp only [beq_iff_eq]
        omega
      rw [hnone]
      simp

/-- Witness for C2 on the sample database with a novel username/email. -/
theorem create_user_spec_w :
    ((sampleDB.users.find? (fun u => u.username == "carol")).isSome →
        create_user sampleDB ⟨"carol", "carol@ex.org", "longpassword"⟩ =
          (409, sampleDB, none)) ∧
    (sampleDB.users.find? (fun u => u.username == "carol") = none →
     (sampleDB.users.find? (fun u => u.email == "carol@ex.org")).isSome →
        create_user sampleDB ⟨"carol", "carol@ex.org", "longpassword"⟩ =
          (409, sampleDB, none)) ∧
    (sampleDB.users.find? (fun u => u.username == "carol") = none →
     sampleDB.users.find? (fun u => u.email == "carol@ex.org") = none →
     ∃ nu : User,
       (create_user sampleDB ⟨"carol", "carol@ex.org", "longpassword"⟩).1 = 201 ∧
       (create_user sampleDB ⟨"carol", "carol@ex.org", "longpassword"⟩).2.2 = some nu ∧
       nu.username = "carol" ∧ nu.email = "carol@ex.org" ∧
       get_user (create_user sampleDB ⟨"carol", "carol@ex.org", "longpassword"⟩).2.1 nu.id =
         (200, some nu)) :=
  create_user_spec sampleDB ⟨"carol", "carol@ex.org", "longpassword"⟩ (by decide)

/-- C6: for an existing user, a PATCH that changes the username to one some
stored (hence different) user already has is answered 400 with the state
unchanged, and — when the username guard passes — the analogous check
applies to a changed email. -/
theorem update_user_duplicate_400 (db : DB) (user_id : Nat) (upd : UserUpdate)
    (user : User) (hu : db.findUser user_id = some user) :
    (∀ un, upd.username = some un → un ≠ user.username →
       (db.users.find? (fun u => u.username == un)).isSome →
       update_user db user_id upd = (400, db)) ∧
    (usernameConflict db user upd = false →
     ∀ em, upd.email = some em → em ≠ user.email →
       (db.users.find? (fun u => u.email == em)).isSome →
       update_user db user_id upd = (400, db)) := by
  constructor
  · intro un hun hne hcoll
    have hc : usernameConflict db user upd = true := by
      unfold usernameConflict
      rw [hun]
      simp only [Bool.and_eq_true, bne_iff_ne, ne_eq]
      exact ⟨hne, hcoll⟩
    unfold update_user
    rw [hu]
    simp [hc]
  · intro hpass em hem hne hcoll
    have hc : emailConflict db user upd = true := by
      unfold emailConflict
      rw [hem]
      simp only [Bool.and_eq_true, bne_iff_ne, ne_eq]
      exact ⟨hne, hcoll⟩
    unfold update_user
    rw [hu]
    simp [hpass, hc]

/-- Witness for C6: patching `bobU` to the taken username "alice" and,
with the username guard passing, to the taken email "alice@ex.org". -/
theorem update_user_duplicate_400_w :
    (∀ un, (⟨some "alice", none, none⟩ : UserUpdate).username = some un →
       un ≠ bobU.username →
       (sampleDB.users.find? (fun u => u.username == un)).isSome →
       update_user sampleDB 2 ⟨some "alice", none, none⟩ = (400, sampleDB)) ∧
    (usernameConflict sampleDB bobU ⟨some "alice", none, none⟩ = false →
     ∀ em, (⟨some "alice", none, none⟩ : UserUpdate).email = some em →
       em ≠ bobU.email →
       (sampleDB.users.find? (fun u => u.email == em)).isSome →
       update_user sampleDB 2 ⟨some "alice", none, none⟩ = (400, sampleDB)) :=
  update_user_duplicate_400 sampleDB 2 ⟨some "alice", none, none⟩ bobU (by decide)

/-- C7: for an existing user, listing the user's posts answers 200 with
exactly the stored posts whose owner id equals the user's id, in storage
order (`List.filter` keeps the storage order), and answers 200 with the
empty list — not an error — when the user owns no post. -/
theorem get_user_posts_exact (db : DB) (user_id : Nat)
    (h : (db.findUser user_id).isSome) :
    get_user_posts db user_id =
      (200, some (db.posts.filter (fun p => p.user_id == user_id))) ∧
    (∀ p : Post, p ∈ db.posts.filter (fun p => p.user_id == user_id) ↔
        p ∈ db.posts ∧ p.user_id = user_id) ∧
    ((∀ p ∈ db.posts, p.user_id ≠ user_id) →
      get_user_posts db user_id = (200, some [])) := by
  have hmain : get_user_posts db user_id =
      (200, some (db.posts.filter (fun p => p.user_id == user_id))) := by
    unfold get_user_posts
    cases hu : db.findUser user_id with
    | none => rw [hu] at h; simp at h
    | some u => rfl
  refine ⟨hmain, ?_, ?_⟩
  · intro p
    simp [List.mem_filter]
  · intro hnone
    rw [hmain]
    have hnil : db.posts.filter (fun p => p.user_id == user_id) = [] := by
      rw [List.filter_eq_nil_iff]
      intro p hp
      simp [hnone p hp]
    rw [hnil]

/-- Witness for C7: the posts of `bobU`, who owns exactly `post2`. -/
theorem get_user_posts_exact_w :
    get_user_posts sampleDB 2 =
      (200, some (sampleDB.posts.filter (fun p => p.user_id == 2))) ∧
    (∀ p : Post, p ∈ sampleDB.posts.filter (fun p => p.user_id == 2) ↔
        p ∈ sampleDB.posts ∧ p.user_id = 2) ∧
    ((∀ p ∈ sampleDB.posts, p.user_id ≠ 2) →
      get_user_posts sampleDB 2 = (200, some [])) :=
  get_user_posts_exact sampleDB 2 (by decide)

/-- C4: for an existing user, a PATCH yields a stored row for that id in
which every field absent from the request body keeps its previous value;
in particular a body supplying only email leaves username and image file
unchanged. -/
theorem update_user_absent_fields_unchanged (db : DB) (user_id : Nat)
    (upd : UserUpdate) (user : User) (hu : db.findUser user_id = some user) :
    ∃ user', (update_user db user_id upd).2.findUser user_id = some user' ∧
      (upd.username = none → user'.username = user.username) ∧
      (upd.email = none → user'.email = user.email) ∧
      (upd.image_file = none → user'.image_file = user.image_file) := by
  have hu' : db.users.find? (fun u => u.id == user_id) = some user := hu
  have hid : user.id = user_id := by simpa using List.find?_some hu'
  by_cases hc1 : usernameConflict db user upd = true
  · have heq : update_user db user_id upd = (400, db) := by
      unfold update_user; rw [hu]; simp [hc1]
    rw [heq]
    exact ⟨user, hu, fun _ => rfl, fun _ => rfl, fun _ => rfl⟩
  · by_cases hc2 : emailConflict db user upd = true
    · have heq : update_user db user_id upd = (400, db) := by
        unfold update_user; rw [hu]; simp [hc1, hc2]
      rw [heq]
      exact ⟨user, hu, fun _ => rfl, fun _ => rfl, fun _ => rfl⟩
    · have husers : (update_user db user_id upd).2.users = db.users.map
          (fun u => if u.id == user_id then applyUserUpdate user upd else u) := by
        unfold update_user; rw [hu]; simp [hc1, hc2]
      refine ⟨applyUserUpdate user upd, ?_, ?_, ?_, ?_⟩
      · show (update_user db user_id upd).2.users.find? (fun u => u.id == user_id) = _
        rw [husers, find?_map_update]
        · rw [hu']
          simp [hid]
        · intro x hx
          simp only [hx, if_true]
          simp [applyUserUpdate, hid]
        · intro x hx
          simp [hx]
      · intro h; simp [applyUserUpdate, h]
      · intro h; simp [applyUserUpdate, h]
      · intro h; simp [applyUserUpdate, h]

/-- Witness for C4: patching only `bobU`'s email. -/
theorem update_user_absent_fields_unchanged_w :
    ∃ user', (update_user sampleDB 2 ⟨none, some "new@ex.org", none⟩).2.findUser 2 =
        some user' ∧
      ((⟨none, some "new@ex.org", none⟩ : UserUpdate).username = none →
        user'.username = bobU.username) ∧
      ((⟨none, some "new@ex.org", none⟩ : UserUpdate).email = none →
        user'.email = bobU.email) ∧
      ((⟨none, some "new@ex.org", none⟩ : UserUpdate).image_file = none →
        user'.image_file = bobU.image_file) :=
  update_user_absent_fields_unchanged sampleDB 2 ⟨none, some "new@ex.org", none⟩
    bobU (by decide)

/-- C8: deleting a stored user and a stored post twice by the same id:
the first call answers 204 and removes the record (it is no longer
retrievable), the second call answers 404 and changes nothing. -/
theorem delete_twice_semantics (db : DB) (user_id post_id : Nat)
    (hu : (db.findUser user_id).isSome) (hp : (db.findPost post_id).isSome) :
    (delete_user db user_id).1 = 204 ∧
    get_user (delete_user db user_id).2 user_id = (404, none) ∧
    delete_user (delete_user db user_id).2 user_id =
      (404, (delete_user db user_id).2) ∧
    (delete_post db post_id).1 = 204 ∧
    get_post (delete_post db post_id).2 post_id = (404, none) ∧
    delete_post (delete_post db post_id).2 post_id =
      (404, (delete_post db post_id).2) := by
  obtain ⟨u, huu⟩ := Option.isSome_iff_exists.mp hu
  obtain ⟨p, hpp⟩ := Option.isSome_iff_exists.mp hp
  have hdu : delete_user db user_id =
      (204, { db with users := db.users.filter (fun x => x.id != user_id) }) := by
    unfold delete_user; rw [huu]
  have hdp : delete_post db post_id =
      (204, { db with posts := db.posts.filter (fun x => x.id != post_id) }) := by
    unfold delete_post; rw [hpp]
  have hfu : ({ db with users := db.users.filter (fun x => x.id != user_id) } : DB).findUser
      user_id = none :=
    find?_filter_ne db.users (fun x => x.id) user_id
  have hfp : ({ db with posts := db.posts.filter (fun x => x.id != post_id) } : DB).findPost
      post_id = none :=
    find?_filter_ne db.posts (fun x => x.id) post_id
  rw [hdu, hdp]
  refine ⟨rfl, ?_, ?_, rfl, ?_, ?_⟩
  · unfold get_user; rw [hfu]
  · unfold delete_user; rw [hfu]
  · unfold get_post; rw [hfp]
  · unfold delete_post; rw [hfp]

/-- Witness for C8 on the sample database, deleting user 1 and post 1. -/
theorem delete_twice_semantics_w :
    (delete_user sampleDB 1).1 = 204 ∧
    get_user (delete_user sampleDB 1).2 1 = (404, none) ∧
    delete_user (delete_user sampleDB 1).2 1 = (404, (delete_user sampleDB 1).2) ∧
    (delete_post sampleDB 1).1 = 204 ∧
    get_post (delete_post sampleDB 1).2 1 = (404, none) ∧
    delete_post (delete_post sampleDB 1).2 1 = (404, (delete_post sampleDB 1).2) :=
  delete_twice_semantics sampleDB 1 1 (by decide) (by decide)

/-- User-table operations leave the posts table and its id counter alone:
`create_user`. -/
theorem create_user_posts_eq (db : DB) (body : UserCreate) :
    (create_user db body).2.1.posts = db.posts ∧
      (create_user db body).2.1.nextPostId = db.nextPostId := by
  unfold create_user
  split
  · exact ⟨rfl, rfl⟩
  · split
    · exact ⟨rfl, rfl⟩
    · exact ⟨rfl, rfl⟩

/-- User-table operations leave the posts table and its id counter alone:
`update_user`. -/
theorem update_user_posts_eq (db : DB) (user_id : Nat) (upd : UserUpdate) :
    (update_user db user_id upd).2.posts = db.posts ∧
      (update_user db user_id upd).2.nextPostId = db.nextPostId := by
  unfold update_user
  split
  · exact ⟨rfl, rfl⟩
  · split
    · exact ⟨rfl, rfl⟩
    · split
      · exact ⟨rfl, rfl⟩
      · exact ⟨rfl, rfl⟩

/-- User-table operations leave the posts table and its id counter alone:
`delete_user`. -/
theorem delete_user_posts_eq (db : DB) (user_id : Nat) :
    (delete_user db user_id).2.posts = db.posts ∧
      (delete_user db user_id).2.nextPostId = db.nextPostId := by
  unfold delete_user
  split
  · exact ⟨rfl, rfl⟩
  · exact ⟨rfl, rfl⟩

/-- The post id counter never decreases across an API request. -/
theorem step_nextPostId_mono (db : DB) (op : Op) :
    db.nextPostId ≤ (step db op).nextPostId := by
  cases op with
  | createUser body => exact (create_user_posts_eq db body).2.ge
  | updateUser user_id upd => exact (update_user_posts_eq db user_id upd).2.ge
  | deleteUser user_id => exact (delete_user_posts_eq db user_id).2.ge
  | createPost body =>
      show db.nextPostId ≤ (create_post db body).2.1.nextPostId
      unfold create_post
      split
      · exact Nat.le_refl _
      · exact Nat.le_succ _
  | updatePostFull post_id body =>
      show db.nextPostId ≤ (update_post_full db post_id body).2.nextPostId
      unfold update_post_full
      split
      · exact Nat.le_refl _
      · split
        · exact Nat.le_refl _
        · split
          · exact Nat.le_refl _
          · exact Nat.le_refl _
  | updatePostPartal post_id body =>
      show db.nextPostId ≤ (update_post_partal db post_id body).2.nextPostId
      unfold update_post_partal
      split
      · exact Nat.le_refl _
      · exact Nat.le_refl _
  | deletePost post_id =>
      show db.nextPostId ≤ (delete_post db post_id).2.nextPostId
      unfold delete_post
      split
      · exact Nat.le_refl _
      · exact Nat.le_refl _

/-- What `create_post` does to the state: nothing, or append one new post
carrying the next id. -/
theorem create_post_state (db : DB) (body : PostCreate) :
    (create_post db body).2.1 = db ∨
    ((create_post db body).2.1.posts =
        db.posts ++ [⟨db.nextPostId, body.title, body.content, body.user_id⟩] ∧
     (create_post db body).2.1.nextPostId = db.nextPostId + 1) := by
  unfold create_post
  split
  · exact Or.inl rfl
  · exact Or.inr ⟨rfl, rfl⟩

/-- What `update_post_full` does to the state: nothing, or — only when the
supplied owner equals the stored owner — rewrite the matched row. -/
theorem update_post_full_state (db : DB) (post_id : Nat) (body : PostCreate) :
    (update_post_full db post_id body).2 = db ∨
    ∃ post, db.findPost post_id = some post ∧ body.user_id = post.user_id ∧
      (update_post_full db post_id body).2.posts =
        db.posts.map (fun p => if p.id == post_id then
          { post with title := body.title, content := body.content,
                      user_id := body.user_id } else p) ∧
      (update_post_full db post_id body).2.nextPostId = db.nextPostId := by
  unfold update_post_full
  split
  · exact Or.inl rfl
  · rename_i post hpost
    split
    · exact Or.inl rfl
    · split
      · exact Or.inl rfl
      · rename_i hne
        refine Or.inr ⟨post, hpost, ?_, rfl, rfl⟩
        simpa [bne_iff_ne, not_ne_iff] using hne

/-- What `update_post_partal` does to the state: nothing, or rewrite the
matched row's title and content leaving its owner alone. -/
theorem update_post_partal_state (db : DB) (post_id : Nat) (body : PostUpdate) :
    (update_post_partal db post_id body).2 = db ∨
    ∃ post, db.findPost post_id = some post ∧
      (update_post_partal db post_id body).2.posts =
        db.posts.map (fun p => if p.id == post_id then
          { post with title := body.title.getD post.title,
                      content := body.content.getD post.content } else p) ∧
      (update_post_partal db post_id body).2.nextPostId = db.nextPostId := by
  unfold update_post_partal
  split
  · exact Or.inl rfl
  · rename_i post hpost
    exact Or.inr ⟨post, hpost, rfl, rfl⟩

/-- What `delete_post` does to the state: nothing, or drop the rows with
the deleted id. -/
theorem delete_post_state (db : DB) (post_id : Nat) :
    (delete_post db post_id).2 = db ∨
    ((delete_post db post_id).2.posts = db.posts.filter (fun p => p.id != post_id) ∧
     (delete_post db post_id).2.nextPostId = db.nextPostId) := by
  unfold delete_post
  split
  · exact Or.inl rfl
  · exact Or.inr ⟨rfl, rfl⟩

/-- Rewriting the row with key `post_id` (keeping its id) commutes with a
lookup by any key `pid`. -/
theorem findPost_map_update (l : List Post) (post_id pid : Nat) (post post' : Post)
    (hfound : l.find? (fun x => x.id == post_id) = some post)
    (hid : post'.id = post.id) :
    (l.map (fun x => if x.id == post_id then post' else x)).find?
        (fun x => x.id == pid) =
      (l.find? (fun x => x.id == pid)).map
        (fun x => if x.id == post_id then post' else x) := by
  have h1 : post.id = post_id := by simpa using List.find?_some hfound
  apply find?_map_update
  · intro x hx
    by_cases hxp : (x.id == post_id) = true
    · rw [if_pos hxp]
      have h2 : x.id = post_id := by simpa using hxp
      have h3 : x.id = pid := by simpa using hx
      simp [hid, h1, h2 ▸ h3]
    · rw [if_neg hxp]; exact hx
  · intro x hx
    by_cases hxp : (x.id == post_id) = true
    · rw [if_pos hxp]
      have h2 : x.id = post_id := by simpa using hxp
      have : post'.id = post_id := hid.trans h1
      rw [this, ← h2]
      exact hx
    · rw [if_neg hxp]; exact hx

/-- Every API request preserves the autoincrement invariant on posts. -/
theorem step_wfPosts (db : DB) (op : Op) (hwf : db.wfPosts) :
    (step db op).wfPosts := by
  intro p hp
  cases op with
  | createUser body =>
      simp only [step] at hp ⊢
      rw [(create_user_posts_eq db body).1] at hp
      rw [(create_user_posts_eq db body).2]
      exact hwf p hp
  | updateUser user_id upd =>
      simp only [step] at hp ⊢
      rw [(update_user_posts_eq db user_id upd).1] at hp
      rw [(update_user_posts_eq db user_id upd).2]
      exact hwf p hp
  | deleteUser user_id =>
      simp only [step] at hp ⊢
      rw [(delete_user_posts_eq db user_id).1] at hp
      rw [(delete_user_posts_eq db user_id).2]
      exact hwf p hp
  | createPost body =>
      simp only [step] at hp ⊢
      rcases create_post_state db body with h | ⟨hposts, hnext⟩
      · rw [h] at hp ⊢; exact hwf p hp
      · rw [hposts] at hp
        rw [hnext]
        rcases List.mem_append.mp hp with h1 | h1
        · exact Nat.lt_succ_of_lt (hwf p h1)
        · rw [List.mem_singleton] at h1
          subst h1
          exact Nat.lt_succ_self _
  | updatePostFull post_id body =>
      simp only [step] at hp ⊢
      rcases update_post_full_state db post_id body with
        h | ⟨post, hpost, howner, hposts, hnext⟩
      · rw [h] at hp ⊢; exact hwf p hp
      · rw [hposts] at hp
        rw [hnext]
        obtain ⟨x, hx, hfx⟩ := List.mem_map.mp hp
        have hmem : post ∈ db.posts :=
          List.mem_of_find?_eq_some (hpost : db.posts.find? (fun x => x.id == post_id) = some post)
        by_cases hxid : (x.id == post_id) = true
        · rw [if_pos hxid] at hfx
          subst hfx
          exact hwf post hmem
        · rw [if_neg hxid] at hfx
          subst hfx
          exact hwf x hx
  | updatePostPartal post_id body =>
      simp only [step] at hp ⊢
      rcases update_post_partal_state db post_id body with
        h | ⟨post, hpost, hposts, hnext⟩
      · rw [h] at hp ⊢; exact hwf p hp
      · rw [hposts] at hp
        rw [hnext]
        obtain ⟨x, hx, hfx⟩ := List.mem_map.mp hp
        have hmem : post ∈ db.posts :=
          List.mem_of_find?_eq_some (hpost : db.posts.find? (fun x => x.id == post_id) = some post)
        by_cases hxid : (x.id == post_id) = true
        · rw [if_pos hxid] at hfx
          subst hfx
          exact hwf post hmem
        · rw [if_neg hxid] at hfx
          subst hfx
          exact hwf x hx
  | deletePost post_id =>
      simp only [step] at hp ⊢
      rcases delete_post_state db post_id with h | ⟨hposts, hnext⟩
      · rw [h] at hp ⊢; exact hwf p hp
      · rw [hposts] at hp
        rw [hnext]
        exact hwf p (List.mem_filter.mp hp).1

/-- One API request either removes a stored post or keeps its owner id. -/
theorem step_findPost_owner (db : DB) (op : Op) (pid : Nat) (p q : Post)
    (hp : db.findPost pid = some p)
    (hq : (step db op).findPost pid = some q) :
    q.user_id = p.user_id := by
  cases op with
  | createUser body =>
      simp only [step] at hq
      have heq : (create_user db body).2.1.findPost pid = db.findPost pid := by
        show (create_user db body).2.1.posts.find? (fun x => x.id == pid) =
          db.posts.find? (fun x => x.id == pid)
        rw [(create_user_posts_eq db body).1]
      rw [heq, hp] at hq
      cases hq
      rfl
  | updateUser user_id upd =>
      simp only [step] at hq
      have heq : (update_user db user_id upd).2.findPost pid = db.findPost pid := by
        show (update_user db user_id upd).2.posts.find? (fun x => x.id == pid) =
          db.posts.find? (fun x => x.id == pid)
        rw [(update_user_posts_eq db user_id upd).1]
      rw [heq, hp] at hq
      cases hq
      rfl
  | deleteUser user_id =>
      simp only [step] at hq
      have heq : (delete_user db user_id).2.findPost pid = db.findPost pid := by
        show (delete_user db user_id).2.posts.find? (fun x => x.id == pid) =
          db.posts.find? (fun x => x.id == pid)
        rw [(delete_user_posts_eq db user_id).1]
      rw [heq, hp] at hq
      cases hq
      rfl
  | createPost body =>
      simp only [step] at hq
      rcases create_post_state db body with h | ⟨hposts, hnext⟩
      · rw [h, hp] at hq; cases hq; rfl
      · have heq : (create_post db body).2.1.findPost pid = some p := by
          show (create_post db body).2.1.posts.find? (fun x => x.id == pid) = some p
          have hp' : db.posts.find? (fun x => x.id == pid) = some p := hp
          rw [hposts, List.find?_append, hp']
          rfl
        rw [heq] at hq
        cases hq
        rfl
  | updatePostFull post_id body =>
      simp only [step] at hq
      rcases update_post_full_state db post_id body with
        h | ⟨post, hpost, howner, hposts, hnext⟩
      · rw [h, hp] at hq; cases hq; rfl
      · have hp' : db.posts.find? (fun x => x.id == pid) = some p := hp
        have hpost' : db.posts.find? (fun x => x.id == post_id) = some post := hpost
        have hq' : (update_post_full db post_id body).2.posts.find?
            (fun x => x.id == pid) = some q := hq
        rw [hposts, findPost_map_update db.posts post_id pid post
          ⟨post.id, body.title, body.content, body.user_id⟩ hpost' rfl, hp'] at hq'
        simp only [Option.map_some'] at hq'
        by_cases hpp : (p.id == post_id) = true
        · have hpid : p.id = pid := by simpa using List.find?_some hp'
          have h2 : p.id = post_id := by simpa using hpp
          have h3 : pid = post_id := by omega
          subst h3
          rw [hp'] at hpost'
          cases hpost'
          rw [if_pos hpp] at hq'
          cases hq'
          exact howner
        · rw [if_neg hpp] at hq'
          cases hq'
          rfl
  | updatePostPartal post_id body =>
      simp only [step] at hq
      rcases update_post_partal_state db post_id body with
        h | ⟨post, hpost, hposts, hnext⟩
      · rw [h, hp] at hq; cases hq; rfl
      · have hp' : db.posts.find? (fun x => x.id == pid) = some p := hp
        have hpost' : db.posts.find? (fun x => x.id == post_id) = some post := hpost
        have hq' : (update_post_partal db post_id body).2.posts.find?
            (fun x => x.id == pid) = some q := hq
        rw [hposts, findPost_map_update db.posts post_id pid post
          ⟨post.id, body.title.getD post.title, body.content.getD post.content,
            post.user_id⟩ hpost' rfl, hp'] at hq'
        simp only [Option.map_some'] at hq'
        by_cases hpp : (p.id == post_id) = true
        · have hpid : p.id = pid := by simpa using List.find?_some hp'
          have h2 : p.id = post_id := by simpa using hpp
          have h3 : pid = post_id := by omega
          subst h3
          rw [hp'] at hpost'
          cases hpost'
          rw [if_pos hpp] at hq'
          cases hq'
          rfl
        · rw [if_neg hpp] at hq'
          cases hq'
          rfl
  | deletePost post_id =>
      simp only [step] at hq
      rcases delete_post_state db post_id with h | ⟨hposts, hnext⟩
      · rw [h, hp] at hq; cases hq; rfl
      · have hq' : (delete_post db post_id).2.posts.find?
            (fun x => x.id == pid) = some q := hq
        rw [hposts] at hq'
        by_cases hpp : pid = post_id
        · subst hpp
          have hnone : (db.posts.filter (fun x => x.id != pid)).find?
              (fun x => x.id == pid) = none :=
            find?_filter_ne db.posts (fun x => x.id) pid
          rw [hnone] at hq'
          cases hq'
        · have heq2 : (db.posts.filter (fun x => x.id != post_id)).find?
              (fun x => x.id == pid) = db.posts.find? (fun x => x.id == pid) :=
            find?_filter_other db.posts (fun x => x.id) pid post_id hpp
          have hp' : db.posts.find? (fun x => x.id == pid) = some p := hp
          rw [heq2, hp'] at hq'
          cases hq'
          rfl

/-- Once a post id below the autoincrement counter is absent, one API
request cannot reintroduce it. -/
theorem step_findPost_none (db : DB) (op : Op) (pid : Nat)
    (hlt : pid < db.nextPostId) (hnone : db.findPost pid = none) :
    (step db op).findPost pid = none := by
  have hnone' : db.posts.find? (fun x => x.id == pid) = none := hnone
  cases op with
  | createUser body =>
      show (create_user db body).2.1.posts.find? (fun x => x.id == pid) = none
      rw [(create_user_posts_eq db body).1]
      exact hnone'
  | updateUser user_id upd =>
      show (update_user db user_id upd).2.posts.find? (fun x => x.id == pid) = none
      rw [(update_user_posts_eq db user_id upd).1]
      exact hnone'
  | deleteUser user_id =>
      show (delete_user db user_id).2.posts.find? (fun x => x.id == pid) = none
      rw [(delete_user_posts_eq db user_id).1]
      exact hnone'
  | createPost body =>
      rcases create_post_state db body with h | ⟨hposts, hnext⟩
      · show (create_post db body).2.1.findPost pid = none
        rw [h]
        exact hnone
      · show (create_post db body).2.1.posts.find? (fun x => x.id == pid) = none
        rw [hposts, List.find?_append, hnone']
        have hne : (db.nextPostId == pid) = false := by
          simp only [beq_eq_false_iff_ne, ne_eq]
          omega
        simp [hne]
  | updatePostFull post_id body =>
      rcases update_post_full_state db post_id body with
        h | ⟨post, hpost, howner, hposts, hnext⟩
      · show (update_post_full db post_id body).2.findPost pid = none
        rw [h]
        exact hnone
      · have hpost' : db.posts.find? (fun x => x.id == post_id) = some post := hpost
        show (update_post_full db post_id body).2.posts.find?
          (fun x => x.id == pid) = none
        rw [hposts, findPost_map_update db.posts post_id pid post
          ⟨post.id, body.title, body.content, body.user_id⟩ hpost' rfl, hnone']
        rfl
  | updatePostPartal post_id body =>
      rcases update_post_partal_state db post_id body with
        h | ⟨post, hpost, hposts, hnext⟩
      · show (update_post_partal db post_id body).2.findPost pid = none
        rw [h]
        exact hnone
      · have hpost' : db.posts.find? (fun x => x.id == post_id) = some post := hpost
        show (update_post_partal db post_id body).2.posts.find?
          (fun x => x.id == pid) = none
        rw [hposts, findPost_map_update db.posts post_id pid post
          ⟨post.id, body.title.getD post.title, body.content.getD post.content,
            post.user_id⟩ hpost' rfl, hnone']
        rfl
  | deletePost post_id =>
      rcases delete_post_state db post_id with h | ⟨hposts, hnext⟩
      · show (delete_post db post_id).2.findPost pid = none
        rw [h]
        exact hnone
      · show (delete_post db post_id).2.posts.find? (fun x => x.id == pid) = none
        rw [hposts, List.find?_eq_none]
        intro x hx
        exact List.find?_eq_none.mp hnone' x (List.mem_filter.mp hx).1

/-- Once a post id below the autoincrement counter is absent, no sequence
of API requests reintroduces it. -/
theorem run_findPost_none (ops : List Op) (db : DB) (pid : Nat)
    (hlt : pid < db.nextPostId) (hnone : db.findPost pid = none) :
    (run db ops).findPost pid = none := by
  induction ops generalizing db with
  | nil => exact hnone
  | cons op ops ih =>
      show (run (step db op) ops).findPost pid = none
      exact ih (step db op)
        (Nat.lt_of_lt_of_le hlt (step_nextPostId_mono db op))
        (step_findPost_none db op pid hlt hnone)

/-- C10: a post's owner id never changes after creation: starting from a
state satisfying the autoincrement invariant, if a post with id `pid` is
stored before and after an arbitrary sequence of API operations (full
update rejects any differing owner before mutating, and the partial-update
schema has no owner field), the stored owner id is the same. -/
theorem post_owner_immutable (db : DB) (ops : List Op) (pid : Nat) (p p' : Post)
    (hwf : db.wfPosts)
    (hp : db.findPost pid = some p)
    (hp' : (run db ops).findPost pid = some p') :
    p'.user_id = p.user_id := by
  induction ops generalizing db p with
  | nil =>
      have h : db.findPost pid = some p' := hp'
      rw [hp] at h
      cases h
      rfl
  | cons op ops ih =>
      have hp'' : (run (step db op) ops).findPost pid = some p' := hp'
      cases hq : (step db op).findPost pid with
      | some q =>
          have h1 : p'.user_id = q.user_id :=
            ih (step db op) q (step_wfPosts db op hwf) hq hp''
          have h2 : q.user_id = p.user_id :=
            step_findPost_owner db op pid p q hp hq
          exact h1.trans h2
      | none =>
          have hpmem : p ∈ db.posts :=
            List.mem_of_find?_eq_some
              (hp : db.posts.find? (fun x => x.id == pid) = some p)
          have hpid : p.id = pid := by
            simpa using List.find?_some
              (hp : db.posts.find? (fun x => x.id == pid) = some p)
          have hlt : pid < (step db op).nextPostId := by
            have h1 : p.id < db.nextPostId := hwf p hpmem
            have h2 := step_nextPostId_mono db op
            omega
          have := run_findPost_none ops (step db op) pid hlt hq
          rw [this] at hp''
          cases hp''

/-- Witness for C10: a concrete sequence — successful full update, partial
update, an unrelated creation and an unrelated deletion — leaves post 1
owned by user 1. -/
theorem post_owner_immutable_w :
    (run sampleDB [Op.updatePostFull 1 ⟨"new title", "new content", 1⟩,
        Op.updatePostPartal 1 ⟨some "t2", none⟩,
        Op.createPost ⟨"x", "y", 2⟩, Op.deletePost 2]).findPost 1 =
      some ⟨1, "t2", "new content", 1⟩ ∧
    (⟨1, "t2", "new content", 1⟩ : Post).user_id = post1.user_id :=
  ⟨by decide,
   post_owner_immutable sampleDB
     [Op.updatePostFull 1 ⟨"new title", "new content", 1⟩,
      Op.updatePostPartal 1 ⟨some "t2", none⟩,
      Op.createPost ⟨"x", "y", 2⟩, Op.deletePost 2]
     1 post1 ⟨1, "t2", "new content", 1⟩ (by decide) (by decide) (by decide)⟩
